import Mathlib

/-!
Shallow embedding of the deposit-backed registry pallet
(src/substrate-node-template/pallets/template/src/lib.rs).

Accounts and balances are modelled as `Nat`.  The pallet storage map
`AccountToUserInfo` is a function `Nat → Option (User × Nat)`; the ledger
collaborator (`ReservableCurrency`) is modelled from its interface contract
(§6 of the spec) as per-account free and reserved balances.  Each dispatchable
returns the dispatch result, the post-state, the list of deposited events and
the list of ledger calls it made.
-/

namespace NicksPallet

/-- Configuration constants of the pallet: `MaxLength` bounds the byte length
of `name` and `title`, `DepositValue` is the amount reserved per new entry. -/
structure Config where
  maxLength : Nat
  depositValue : Nat
  deriving Repr, DecidableEq

/-- The stored record type `User<T>`: `name` and `title` are byte sequences
(bounded by `MaxLength` at construction time), `age` is a `u8`. -/
structure User where
  name : List Nat
  age : Nat
  title : List Nat
  deriving Repr, DecidableEq

/-- The ledger collaborator's per-account state: free and reserved balances.
Modelled from the spec (§6): the interface of `ReservableCurrency` as used by
this pallet. -/
structure Ledger where
  free : Nat → Nat
  reserved : Nat → Nat

/-- Full state visible to the pallet: the record store plus the ledger. -/
structure PState where
  store : Nat → Option (User × Nat)
  ledger : Ledger

/-- Dispatch origins: a signed account or the privileged (`ForceOrigin`) root. -/
inductive Origin where
  | signed (who : Nat)
  | root
  deriving Repr, DecidableEq

/-- The error surface: the pallet's own `TooLong` and `UserNotAdded`, the
ledger's `InsufficientBalance` propagated from `reserve`, and the origin
failures of `ensure_signed` / `ForceOrigin::ensure_origin`. -/
inductive Err where
  | TooLong
  | UserNotAdded
  | InsufficientBalance
  | Unauthorized
  deriving Repr, DecidableEq

/-- The pallet's events. -/
inductive Event where
  | UserInfoUpdated (who : Nat)
  | UserInfoAdded (who : Nat)
  | UserInfoDeleted (who : Nat)
  | ValueReserved (who : Nat) (amount : Nat)
  | ValueUnreserved (who : Nat) (amount : Nat)
  | SlashedBalance (who : Nat) (amount : Nat)
  deriving Repr, DecidableEq

/-- Calls made into the ledger collaborator, recorded with their arguments. -/
inductive LedgerCall where
  | reserve (who : Nat) (amount : Nat)
  | unreserve (who : Nat) (amount : Nat)
  | slashReserved (who : Nat) (amount : Nat)
  deriving Repr, DecidableEq

/-- Outcome of a dispatchable: result, post-state, deposited events, ledger
calls made (in order). -/
structure Outcome where
  result : Except Err Unit
  state : PState
  events : List Event
  calls : List LedgerCall

/-- `ensure_signed`: succeeds with the account for a signed origin. -/
def ensureSigned : Origin → Except Err Nat
  | .signed who => .ok who
  | .root => .error .Unauthorized

/-- `ForceOrigin::ensure_origin`: succeeds only for the privileged origin. -/
def ensureForceOrigin : Origin → Except Err Unit
  | .root => .ok ()
  | .signed _ => .error .Unauthorized

/-- Point update of the store map (insert or overwrite). -/
def storeInsert (m : Nat → Option (User × Nat)) (k : Nat) (v : User × Nat) :
    Nat → Option (User × Nat) :=
  fun a => if a = k then some v else m a

/-- Point removal from the store map. -/
def storeRemove (m : Nat → Option (User × Nat)) (k : Nat) :
    Nat → Option (User × Nat) :=
  fun a => if a = k then none else m a

/-- Modelled from the spec (§6): `reserve(identity, amount)` moves `amount`
from free to reserved, failing with `InsufficientBalance` (and changing
nothing) when the free balance is too small. -/
def Ledger.reserve (l : Ledger) (who amount : Nat) : Except Err Ledger :=
  if amount ≤ l.free who then
    .ok { free := fun a => if a = who then l.free a - amount else l.free a,
          reserved := fun a => if a = who then l.reserved a + amount else l.reserved a }
  else
    .error .InsufficientBalance

/-- Modelled from the spec (§6): `unreserve(identity, amount)` moves
`min amount reserved` back to free and returns the amount actually released;
it never fails. -/
def Ledger.unreserve (l : Ledger) (who amount : Nat) : Ledger × Nat :=
  let actual := min amount (l.reserved who)
  ({ free := fun a => if a = who then l.free a + actual else l.free a,
     reserved := fun a => if a = who then l.reserved a - actual else l.reserved a },
   actual)

/-- Modelled from the spec (§6): `slash_reserved(identity, amount)` removes up
to `amount` from the reserved balance permanently (not returned to free) and
returns `(forfeited_value, realized_total)`, the real total removed. -/
def Ledger.slashReserved (l : Ledger) (who amount : Nat) : Ledger × (Nat × Nat) :=
  let actual := min amount (l.reserved who)
  ({ free := l.free,
     reserved := fun a => if a = who then l.reserved a - actual else l.reserved a },
   (actual, actual))

/-- Dispatchable `insert_user_info` (`submit_profile`): validate bounds, keep
the existing deposit on update, otherwise reserve `DepositValue`, then write
the entry and emit `UserInfoAdded`. -/
def insertUserInfo (cfg : Config) (st : PState) (origin : Origin)
    (name : List Nat) (age : Nat) (title : List Nat) : Outcome :=
  match ensureSigned origin with
  | .error e => ⟨.error e, st, [], []⟩
  | .ok sender =>
    if name.length ≤ cfg.maxLength then
      if title.length ≤ cfg.maxLength then
        let user : User := ⟨name, age, title⟩
        match st.store sender with
        | some (_, deposit) =>
          ⟨.ok (), { st with store := storeInsert st.store sender (user, deposit) },
           [.UserInfoUpdated sender, .UserInfoAdded sender], []⟩
        | none =>
          let deposit := cfg.depositValue
          match st.ledger.reserve sender deposit with
          | .error e => ⟨.error e, st, [], [.reserve sender deposit]⟩
          | .ok l =>
            ⟨.ok (), { store := storeInsert st.store sender (user, deposit), ledger := l },
             [.ValueReserved sender deposit, .UserInfoAdded sender],
             [.reserve sender deposit]⟩
      else ⟨.error .TooLong, st, [], []⟩
    else ⟨.error .TooLong, st, [], []⟩

/-- Dispatchable `clear_user_info` (`withdraw_profile`): require an entry,
unreserve its stored deposit, emit `ValueUnreserved`, remove the entry, emit
`UserInfoDeleted`. -/
def clearUserInfo (st : PState) (origin : Origin) : Outcome :=
  match ensureSigned origin with
  | .error e => ⟨.error e, st, [], []⟩
  | .ok sender =>
    match st.store sender with
    | none => ⟨.error .UserNotAdded, st, [], []⟩
    | some (_, deposit) =>
      let lr := st.ledger.unreserve sender deposit
      ⟨.ok (), { store := storeRemove st.store sender, ledger := lr.1 },
       [.ValueUnreserved sender deposit, .UserInfoDeleted sender],
       [.unreserve sender deposit]⟩

/-- Dispatchable `kill_user_info` (`force_remove`): privileged origin only;
require an entry for the target, slash the stored deposit, emit
`SlashedBalance` with the realized total returned by the ledger, hand the
imbalance to the sink, remove the entry, emit `UserInfoDeleted`.  Address
lookup is modelled as the identity function on accounts. -/
def killUserInfo (st : PState) (origin : Origin) (recipient : Nat) : Outcome :=
  match ensureForceOrigin origin with
  | .error e => ⟨.error e, st, [], []⟩
  | .ok _ =>
    let target := recipient
    match st.store target with
    | none => ⟨.error .UserNotAdded, st, [], []⟩
    | some (_, deposit) =>
      let sr := st.ledger.slashReserved target deposit
      ⟨.ok (), { store := storeRemove st.store target, ledger := sr.1 },
       [.SlashedBalance target sr.2.2, .UserInfoDeleted target],
       [.slashReserved target deposit]⟩

/-- Dispatchable `force_user_info` (`force_set_profile`): privileged origin
only; validate bounds, carry over the existing deposit (or zero when the
target is absent), overwrite the entry.  No ledger call, no event. -/
def forceUserInfo (cfg : Config) (st : PState) (origin : Origin) (recipient : Nat)
    (name : List Nat) (age : Nat) (title : List Nat) : Outcome :=
  match ensureForceOrigin origin with
  | .error e => ⟨.error e, st, [], []⟩
  | .ok _ =>
    if name.length ≤ cfg.maxLength then
      if title.length ≤ cfg.maxLength then
        let target := recipient
        let user : User := ⟨name, age, title⟩
        let deposit :=
          match st.store target with
          | some (_, d) => d
          | none => 0
        ⟨.ok (), { st with store := storeInsert st.store target (user, deposit) }, [], []⟩
      else ⟨.error .TooLong, st, [], []⟩
    else ⟨.error .TooLong, st, [], []⟩

/-- The deposit that `force_user_info` carries over: the existing entry's
deposit when present, zero otherwise (source lines 148-151). -/
def carriedDeposit (st : PState) (a : Nat) : Nat :=
  match st.store a with
  | some (_, d) => d
  | none => 0

/-- The conservation invariant of §3: every present entry's stored deposit
equals the ledger reservation of its identity, and every absent identity has
zero reservation. -/
def ConservationInv (st : PState) : Prop :=
  ∀ a, st.ledger.reserved a = carriedDeposit st a

/-- States reachable from an all-empty registry (no entries, no reservations,
arbitrary free balances) by any sequence of the three non-bypass operations. -/
inductive Reachable (cfg : Config) : PState → Prop where
  | init (free : Nat → Nat) :
      Reachable cfg ⟨fun _ => none, ⟨free, fun _ => 0⟩⟩
  | insert (st : PState) (origin : Origin) (name : List Nat) (age : Nat)
      (title : List Nat) : Reachable cfg st →
      Reachable cfg (insertUserInfo cfg st origin name age title).state
  | clear (st : PState) (origin : Origin) : Reachable cfg st →
      Reachable cfg (clearUserInfo st origin).state
  | kill (st : PState) (origin : Origin) (recipient : Nat) : Reachable cfg st →
      Reachable cfg (killUserInfo st origin recipient).state

/-- A concrete example user. -/
def exUser : User := ⟨[1, 2], 30, [3]⟩

/-- A concrete example configuration (`MaxLength = 10`, `DepositValue = 50`). -/
def exCfg : Config := ⟨10, 50⟩

/-- A concrete state where account 0 holds an entry with deposit 50. -/
def exStWith : PState :=
  ⟨fun b => if b = 0 then some (exUser, 50) else none,
   ⟨fun _ => 100, fun b => if b = 0 then 50 else 0⟩⟩

/-- A concrete state with no entries and 100 free units per account. -/
def exStEmpty : PState :=
  ⟨fun _ => none, ⟨fun _ => 100, fun _ => 0⟩⟩

/-- A concrete state where account 0 holds an entry with deposit 0 and no
reservation, as produced by `force_user_info` on an absent target. -/
def exStZero : PState :=
  ⟨fun b => if b = 0 then some (exUser, 0) else none,
   ⟨fun _ => 100, fun _ => 0⟩⟩

/-- Claim C2: for an identity that already has an entry, `insert_user_info`
with valid-length name and title succeeds, replaces only the profile (the
stored deposit is preserved unchanged), makes no ledger call, leaves the
ledger untouched and leaves every other identity's entry unchanged. -/
theorem insert_existing_preserves_deposit (cfg : Config) (st : PState)
    (a : Nat) (n : List Nat) (g : Nat) (t : List Nat) (u : User) (d : Nat)
    (hE : st.store a = some (u, d))
    (hn : n.length ≤ cfg.maxLength) (ht : t.length ≤ cfg.maxLength) :
    (insertUserInfo cfg st (.signed a) n g t).result = .ok () ∧
    (insertUserInfo cfg st (.signed a) n g t).state.store a = some (⟨n, g, t⟩, d) ∧
    (insertUserInfo cfg st (.signed a) n g t).calls = [] ∧
    (insertUserInfo cfg st (.signed a) n g t).state.ledger = st.ledger ∧
    ∀ b, b ≠ a → (insertUserInfo cfg st (.signed a) n g t).state.store b = st.store b := by
  simp [insertUserInfo, ensureSigned, hn, ht, hE, storeInsert]
  exact fun b hb hba => absurd hba hb

/-- Claim C2 witness: account 0 of `exStWith` resubmits `([1,2], 31, [4,5])`;
the entry becomes that profile with the old deposit 50 and no ledger call. -/
theorem insert_existing_preserves_deposit_witness :
    (insertUserInfo exCfg exStWith (.signed 0) [1, 2] 31 [4, 5]).result = .ok () ∧
    (insertUserInfo exCfg exStWith (.signed 0) [1, 2] 31 [4, 5]).state.store 0 =
      some (⟨[1, 2], 31, [4, 5]⟩, 50) ∧
    (insertUserInfo exCfg exStWith (.signed 0) [1, 2] 31 [4, 5]).calls = [] := by
  have h := insert_existing_preserves_deposit exCfg exStWith 0 [1, 2] 31 [4, 5]
    exUser 50 (by simp [exStWith]) (by simp [exCfg]) (by simp [exCfg])
  exact ⟨h.1, h.2.1, h.2.2.1⟩

/-- Claim C3: for an identity with no entry, `insert_user_info` with
valid-length fields calls `reserve` exactly once with `DepositValue`; when the
free balance suffices it succeeds and creates an entry whose deposit equals
`DepositValue`, and when the reserve fails for insufficient balance it
propagates that error and leaves the whole state untouched. -/
theorem insert_new_reserves_deposit (cfg : Config) (st : PState)
    (a : Nat) (n : List Nat) (g : Nat) (t : List Nat)
    (hA : st.store a = none)
    (hn : n.length ≤ cfg.maxLength) (ht : t.length ≤ cfg.maxLength) :
    (insertUserInfo cfg st (.signed a) n g t).calls = [.reserve a cfg.depositValue] ∧
    (cfg.depositValue ≤ st.ledger.free a →
      (insertUserInfo cfg st (.signed a) n g t).result = .ok () ∧
      (insertUserInfo cfg st (.signed a) n g t).state.store a =
        some (⟨n, g, t⟩, cfg.depositValue)) ∧
    (st.ledger.free a < cfg.depositValue →
      (insertUserInfo cfg st (.signed a) n g t).result = .error .InsufficientBalance ∧
      (insertUserInfo cfg st (.signed a) n g t).state = st) := by
  by_cases hfree : cfg.depositValue ≤ st.ledger.free a
  · simp [insertUserInfo, ensureSigned, hn, ht, hA, Ledger.reserve, hfree, storeInsert]
  · simp [insertUserInfo, ensureSigned, hn, ht, hA, Ledger.reserve, hfree]

/-- Claim C3 witness: account 1 of `exStWith` has no entry and 100 free units;
submitting `([7], 20, [8])` succeeds, creates an entry with deposit 50, and
makes exactly the call `reserve 1 50`. -/
theorem insert_new_reserves_deposit_witness :
    (insertUserInfo exCfg exStWith (.signed 1) [7] 20 [8]).calls = [.reserve 1 50] ∧
    (insertUserInfo exCfg exStWith (.signed 1) [7] 20 [8]).result = .ok () ∧
    (insertUserInfo exCfg exStWith (.signed 1) [7] 20 [8]).state.store 1 =
      some (⟨[7], 20, [8]⟩, 50) := by
  have h := insert_new_reserves_deposit exCfg exStWith 1 [7] 20 [8]
    (by simp [exStWith]) (by simp [exCfg]) (by simp [exCfg])
  have h2 := h.2.1 (by simp [exCfg, exStWith])
  exact ⟨h.1, h2.1, h2.2⟩

/-- Claim C4: `kill_user_info` under the privileged origin on a present target
succeeds, removes the target's entry, calls `slash_reserved` with exactly the
stored deposit, and emits `SlashedBalance` carrying the realized total
returned by the ledger (`min` of the request and the actual reservation),
followed by `UserInfoDeleted`. -/
theorem kill_present_slashes_deposit (st : PState) (target : Nat)
    (u : User) (d : Nat) (hE : st.store target = some (u, d)) :
    (killUserInfo st .root target).result = .ok () ∧
    (killUserInfo st .root target).state.store target = none ∧
    (killUserInfo st .root target).calls = [.slashReserved target d] ∧
    (killUserInfo st .root target).events =
      [.SlashedBalance target (min d (st.ledger.reserved target)),
       .UserInfoDeleted target] := by
  simp [killUserInfo, ensureForceOrigin, hE, Ledger.slashReserved, storeRemove]

/-- Claim C4 witness: killing account 0 of `exStWith` (deposit 50, reservation
50) removes the entry, calls `slash_reserved 0 50` and emits
`SlashedBalance 0 50` then `UserInfoDeleted 0`. -/
theorem kill_present_slashes_deposit_witness :
    (killUserInfo exStWith .root 0).result = .ok () ∧
    (killUserInfo exStWith .root 0).state.store 0 = none ∧
    (killUserInfo exStWith .root 0).calls = [.slashReserved 0 50] ∧
    (killUserInfo exStWith .root 0).events =
      [.SlashedBalance 0 50, .UserInfoDeleted 0] := by
  have h := kill_present_slashes_deposit exStWith 0 exUser 50 (by simp [exStWith])
  refine ⟨h.1, h.2.1, h.2.2.1, ?_⟩
  have he := h.2.2.2
  simpa [exStWith] using he

/-- Claim C5: `force_user_info` under the privileged origin with valid-length
fields succeeds, overwrites the target's entry with the new profile reusing
the existing deposit (zero when the target was absent), makes no ledger call,
emits no event, and leaves the ledger untouched. -/
theorem force_set_carries_deposit (cfg : Config) (st : PState)
    (target : Nat) (n : List Nat) (g : Nat) (t : List Nat)
    (hn : n.length ≤ cfg.maxLength) (ht : t.length ≤ cfg.maxLength) :
    (forceUserInfo cfg st .root target n g t).result = .ok () ∧
    (forceUserInfo cfg st .root target n g t).state.store target =
      some (⟨n, g, t⟩, carriedDeposit st target) ∧
    (forceUserInfo cfg st .root target n g t).calls = [] ∧
    (forceUserInfo cfg st .root target n g t).events = [] ∧
    (forceUserInfo cfg st .root target n g t).state.ledger = st.ledger := by
  rcases h : st.store target with _ | p
  · simp [forceUserInfo, ensureForceOrigin, hn, ht, h, storeInsert, carriedDeposit]
  · simp [forceUserInfo, ensureForceOrigin, hn, ht, h, storeInsert, carriedDeposit]

/-- Claim C5 witness: force-setting absent account 3 of `exStWith` creates an
entry with deposit 0; force-setting present account 0 keeps deposit 50; both
with no ledger call and no event. -/
theorem force_set_carries_deposit_witness :
    (forceUserInfo exCfg exStWith .root 3 [9] 40 []).state.store 3 =
      some (⟨[9], 40, []⟩, 0) ∧
    (forceUserInfo exCfg exStWith .root 0 [9] 40 []).state.store 0 =
      some (⟨[9], 40, []⟩, 50) ∧
    (forceUserInfo exCfg exStWith .root 3 [9] 40 []).calls = [] ∧
    (forceUserInfo exCfg exStWith .root 3 [9] 40 []).events = [] := by
  have h3 := force_set_carries_deposit exCfg exStWith 3 [9] 40 []
    (by simp [exCfg]) (by simp [exCfg])
  have h0 := force_set_carries_deposit exCfg exStWith 0 [9] 40 []
    (by simp [exCfg]) (by simp [exCfg])
  refine ⟨?_, ?_, h3.2.2.1, h3.2.2.2.1⟩
  · simpa [exStWith, carriedDeposit] using h3.2.1
  · simpa [exStWith, exUser, carriedDeposit] using h0.2.1

/-- Claim C6: when the name or the title exceeds `MaxLength`, both
`insert_user_info` (signed origin) and `force_user_info` (privileged origin)
fail with `TooLong` and have no side effect at all: the outcome is exactly the
`TooLong` error with the state unchanged, no event and no ledger call. -/
theorem too_long_no_side_effect (cfg : Config) (st : PState)
    (a b : Nat) (n : List Nat) (g : Nat) (t : List Nat)
    (hlen : cfg.maxLength < n.length ∨ cfg.maxLength < t.length) :
    insertUserInfo cfg st (.signed a) n g t = ⟨.error .TooLong, st, [], []⟩ ∧
    forceUserInfo cfg st .root b n g t = ⟨.error .TooLong, st, [], []⟩ := by
  rcases hlen with hlen | hlen
  · have hn : ¬ n.length ≤ cfg.maxLength := by omega
    constructor
    · simp [insertUserInfo, ensureSigned, hn]
    · simp [forceUserInfo, ensureForceOrigin, hn]
  · by_cases hn : n.length ≤ cfg.maxLength
    · have ht : ¬ t.length ≤ cfg.maxLength := by omega
      constructor
      · simp [insertUserInfo, ensureSigned, hn, ht]
      · simp [forceUserInfo, ensureForceOrigin, hn, ht]
    · constructor
      · simp [insertUserInfo, ensureSigned, hn]
      · simp [forceUserInfo, ensureForceOrigin, hn]

/-- Claim C6 witness: with `MaxLength = 10`, an 11-byte name makes both
operations on `exStWith` return `TooLong` with state, events and calls
untouched. -/
theorem too_long_no_side_effect_witness :
    insertUserInfo exCfg exStWith (.signed 0) [0, 1, 2, 3, 4, 5, 6, 7, 8, 9, 10] 5 [1] =
      ⟨.error .TooLong, exStWith, [], []⟩ ∧
    forceUserInfo exCfg exStWith .root 0 [0, 1, 2, 3, 4, 5, 6, 7, 8, 9, 10] 5 [1] =
      ⟨.error .TooLong, exStWith, [], []⟩ :=
  too_long_no_side_effect exCfg exStWith 0 0 [0, 1, 2, 3, 4, 5, 6, 7, 8, 9, 10] 5 [1]
    (by simp [exCfg])

/-- Claim C7: `clear_user_info` on an identity with a present entry succeeds,
removes the entry, calls `unreserve` exactly once with exactly the stored
deposit, and emits `ValueUnreserved` then `UserInfoDeleted`. -/
theorem clear_present_unreserves_deposit (st : PState) (a : Nat)
    (u : User) (d : Nat) (hE : st.store a = some (u, d)) :
    (clearUserInfo st (.signed a)).result = .ok () ∧
    (clearUserInfo st (.signed a)).state.store a = none ∧
    (clearUserInfo st (.signed a)).calls = [.unreserve a d] ∧
    (clearUserInfo st (.signed a)).events =
      [.ValueUnreserved a d, .UserInfoDeleted a] := by
  simp [clearUserInfo, ensureSigned, hE, storeRemove]

/-- Claim C7 witness: clearing account 0 of `exStWith` removes the entry,
calls `unreserve 0 50` and emits `ValueUnreserved 0 50` then
`UserInfoDeleted 0`. -/
theorem clear_present_unreserves_deposit_witness :
    (clearUserInfo exStWith (.signed 0)).result = .ok () ∧
    (clearUserInfo exStWith (.signed 0)).state.store 0 = none ∧
    (clearUserInfo exStWith (.signed 0)).calls = [.unreserve 0 50] ∧
    (clearUserInfo exStWith (.signed 0)).events =
      [.ValueUnreserved 0 50, .UserInfoDeleted 0] :=
  clear_present_unreserves_deposit exStWith 0 exUser 50 (by simp [exStWith])

/-- Claim C8: `kill_user_info` under any non-privileged (signed) origin fails
with the authorization error and changes nothing, for every state and every
target — in particular regardless of whether the target has an entry, since
the origin check precedes the entry lookup. -/
theorem kill_unauthorized_no_change (st : PState) (a target : Nat) :
    killUserInfo st (.signed a) target = ⟨.error .Unauthorized, st, [], []⟩ := rfl

/-- Claim C10: an entry whose stored deposit is zero (as created by
`force_user_info` on an absent target) is cleared normally:
`clear_user_info` succeeds, calls `unreserve` with amount 0, emits
`ValueUnreserved` carrying 0, removes the entry and emits `UserInfoDeleted`. -/
theorem clear_zero_deposit_entry (st : PState) (a : Nat)
    (u : User) (hE : st.store a = some (u, 0)) :
    (clearUserInfo st (.signed a)).result = .ok () ∧
    (clearUserInfo st (.signed a)).calls = [.unreserve a 0] ∧
    (clearUserInfo st (.signed a)).events =
      [.ValueUnreserved a 0, .UserInfoDeleted a] ∧
    (clearUserInfo st (.signed a)).state.store a = none := by
  simp [clearUserInfo, ensureSigned, hE, storeRemove]

/-- Claim C10 witness: in `exStZero` account 0 has a zero-deposit entry;
clearing it succeeds with an `unreserve 0 0` call, a `ValueUnreserved 0 0`
event, and the entry removed. -/
theorem clear_zero_deposit_entry_witness :
    (clearUserInfo exStZero (.signed 0)).result = .ok () ∧
    (clearUserInfo exStZero (.signed 0)).calls = [.unreserve 0 0] ∧
    (clearUserInfo exStZero (.signed 0)).events =
      [.ValueUnreserved 0 0, .UserInfoDeleted 0] ∧
    (clearUserInfo exStZero (.signed 0)).state.store 0 = none :=
  clear_zero_deposit_entry exStZero 0 exUser (by simp [exStZero])

/-- Claim C9 counterexample: account 0 of `exStWith` already has an entry, so
invoking `insert_user_info` twice with identical valid-length inputs makes
zero reservation calls across both invocations, not exactly one as the claim
states for every identity. -/
theorem insert_twice_reserve_count_counterexample :
    ([1, 2] : List Nat).length ≤ exCfg.maxLength ∧
    ([3] : List Nat).length ≤ exCfg.maxLength ∧
    ¬ (((insertUserInfo exCfg exStWith (.signed 0) [1, 2] 30 [3]).calls ++
        (insertUserInfo exCfg
          (insertUserInfo exCfg exStWith (.signed 0) [1, 2] 30 [3]).state
          (.signed 0) [1, 2] 30 [3]).calls).length = 1) := by
  refine ⟨by simp [exCfg], by simp [exCfg], ?_⟩
  simp [insertUserInfo, ensureSigned, exCfg, exStWith, storeInsert]

/-- Claim C9 (amended): for an identity with no existing entry and free
balance at least `DepositValue`, invoking `insert_user_info` twice in a row
with identical valid-length inputs yields the same final entry as invoking it
once, and exactly one ledger reservation call occurs across both
invocations. -/
theorem insert_twice_idempotent (cfg : Config) (st : PState)
    (a : Nat) (n : List Nat) (g : Nat) (t : List Nat)
    (hA : st.store a = none) (hfree : cfg.depositValue ≤ st.ledger.free a)
    (hn : n.length ≤ cfg.maxLength) (ht : t.length ≤ cfg.maxLength) :
    (insertUserInfo cfg (insertUserInfo cfg st (.signed a) n g t).state
        (.signed a) n g t).state.store a =
      (insertUserInfo cfg st (.signed a) n g t).state.store a ∧
    (insertUserInfo cfg st (.signed a) n g t).state.store a =
      some (⟨n, g, t⟩, cfg.depositValue) ∧
    (insertUserInfo cfg st (.signed a) n g t).calls ++
      (insertUserInfo cfg (insertUserInfo cfg st (.signed a) n g t).state
        (.signed a) n g t).calls = [.reserve a cfg.depositValue] := by
  simp [insertUserInfo, ensureSigned, hn, ht, hA, Ledger.reserve, hfree, storeInsert]

/-- Claim C9 witness: account 1 of `exStWith` has no entry and 100 ≥ 50 free;
submitting `([7], 20, [8])` twice ends with the same entry as once and a
single `reserve 1 50` call in total. -/
theorem insert_twice_idempotent_witness :
    (insertUserInfo exCfg (insertUserInfo exCfg exStWith (.signed 1) [7] 20 [8]).state
        (.signed 1) [7] 20 [8]).state.store 1 =
      (insertUserInfo exCfg exStWith (.signed 1) [7] 20 [8]).state.store 1 ∧
    (insertUserInfo exCfg exStWith (.signed 1) [7] 20 [8]).state.store 1 =
      some (⟨[7], 20, [8]⟩, 50) ∧
    (insertUserInfo exCfg exStWith (.signed 1) [7] 20 [8]).calls ++
      (insertUserInfo exCfg (insertUserInfo exCfg exStWith (.signed 1) [7] 20 [8]).state
        (.signed 1) [7] 20 [8]).calls = [.reserve 1 50] :=
  insert_twice_idempotent exCfg exStWith 1 [7] 20 [8]
    (by simp [exStWith]) (by simp [exCfg, exStWith]) (by simp [exCfg]) (by simp [exCfg])

/-- `insert_user_info` preserves the conservation invariant. -/
theorem insert_preserves_inv (cfg : Config) (st : PState) (origin : Origin)
    (n : List Nat) (g : Nat) (t : List Nat) (h : ConservationInv st) :
    ConservationInv (insertUserInfo cfg st origin n g t).state := by
  cases origin with
  | root => simpa [insertUserInfo, ensureSigned] using h
  | signed s =>
    by_cases hn : n.length ≤ cfg.maxLength
    · by_cases ht : t.length ≤ cfg.maxLength
      · rcases hst : st.store s with _ | ⟨u, d⟩
        · by_cases hfree : cfg.depositValue ≤ st.ledger.free s
          · intro a
            have hs := h s
            simp [carriedDeposit, hst] at hs
            by_cases ha : a = s
            · subst ha
              simp [insertUserInfo, ensureSigned, hn, ht, hst, Ledger.reserve,
                hfree, storeInsert, carriedDeposit, hs]
            · have hsa := h a
              simp [insertUserInfo, ensureSigned, hn, ht, hst, Ledger.reserve,
                hfree, storeInsert, carriedDeposit, ha]
              simpa [carriedDeposit] using hsa
          · simpa [insertUserInfo, ensureSigned, hn, ht, hst, Ledger.reserve,
              hfree] using h
        · intro a
          by_cases ha : a = s
          · subst ha
            have hs := h a
            simp [carriedDeposit, hst] at hs
            simp [insertUserInfo, ensureSigned, hn, ht, hst, storeInsert,
              carriedDeposit, hs]
          · have hsa := h a
            simp [insertUserInfo, ensureSigned, hn, ht, hst, storeInsert,
              carriedDeposit, ha]
            simpa [carriedDeposit] using hsa
      · simpa [insertUserInfo, ensureSigned, hn, ht] using h
    · simpa [insertUserInfo, ensureSigned, hn] using h

/-- `clear_user_info` preserves the conservation invariant. -/
theorem clear_preserves_inv (st : PState) (origin : Origin)
    (h : ConservationInv st) : ConservationInv (clearUserInfo st origin).state := by
  cases origin with
  | root => simpa [clearUserInfo, ensureSigned] using h
  | signed s =>
    rcases hst : st.store s with _ | ⟨u, d⟩
    · simpa [clearUserInfo, ensureSigned, hst] using h
    · intro a
      by_cases ha : a = s
      · subst ha
        have hs := h a
        simp [carriedDeposit, hst] at hs
        simp [clearUserInfo, ensureSigned, hst, Ledger.unreserve, storeRemove,
          carriedDeposit, hs]
      · have hsa := h a
        simp [clearUserInfo, ensureSigned, hst, Ledger.unreserve, storeRemove,
          carriedDeposit, ha]
        simpa [carriedDeposit] using hsa

/-- `kill_user_info` preserves the conservation invariant. -/
theorem kill_preserves_inv (st : PState) (origin : Origin) (recipient : Nat)
    (h : ConservationInv st) :
    ConservationInv (killUserInfo st origin recipient).state := by
  cases origin with
  | signed s => simpa [killUserInfo, ensureForceOrigin] using h
  | root =>
    rcases hst : st.store recipient with _ | ⟨u, d⟩
    · simpa [killUserInfo, ensureForceOrigin, hst] using h
    · intro a
      by_cases ha : a = recipient
      · subst ha
        have hs := h a
        simp [carriedDeposit, hst] at hs
        simp [killUserInfo, ensureForceOrigin, hst, Ledger.slashReserved,
          storeRemove, carriedDeposit, hs]
      · have hsa := h a
        simp [killUserInfo, ensureForceOrigin, hst, Ledger.slashReserved,
          storeRemove, carriedDeposit, ha]
        simpa [carriedDeposit] using hsa

/-- Claim C1: in every state reachable by any sequence of `insert_user_info`,
`clear_user_info` and `kill_user_info` (the `force_user_info` bypass
excluded), every present entry's stored deposit equals the identity's ledger
reservation, and every identity without an entry has zero reservation. -/
theorem reachable_conservation (cfg : Config) (st : PState)
    (h : Reachable cfg st) : ConservationInv st := by
  induction h with
  | init free => intro a; simp [carriedDeposit]
  | insert st origin n g t _ ih => exact insert_preserves_inv cfg st origin n g t ih
  | clear st origin _ ih => exact clear_preserves_inv st origin ih
  | kill st origin recipient _ ih => exact kill_preserves_inv st origin recipient ih

/-- Claim C1 witness: after one successful registration by account 0 starting
from the empty state, account 0's ledger reservation equals its stored
deposit. -/
theorem reachable_conservation_witness :
    (insertUserInfo exCfg exStEmpty (.signed 0) [1] 2 [3]).state.ledger.reserved 0 =
      carriedDeposit (insertUserInfo exCfg exStEmpty (.signed 0) [1] 2 [3]).state 0 :=
  reachable_conservation exCfg _
    (Reachable.insert exStEmpty (.signed 0) [1] 2 [3] (Reachable.init (fun _ => 100))) 0

end NicksPallet
